import Mathlib

/-!
Verification of the objectstorex streaming and session bridge
(native/objectstorex/src: streaming.rs, errors.rs, atoms.rs, operations.rs).

The Rust code is shallowly embedded: byte buffers become `List Nat`,
the two global session registries become function maps `String → Option Nat`
(a tokio `JoinHandle` is abstracted to an opaque `Nat` token), the message
stream sent to the receiving Elixir process becomes a `List Msg`, and the
backend object store (an external collaborator in the design) is modelled
from its contract where the repository does not contain it.
-/

namespace ObjectStorex

/-- Elixir atoms declared in atoms.rs via the rustler atoms! block, plus the
object atom used by the list stream. Note the block declares no atom for a
duplicate-session or invalid-session-state condition. -/
inductive Atom where
  | ok
  | error
  | not_found
  | already_exists
  | precondition_failed
  | not_modified
  | not_supported
  | permission_denied
  | chunk
  | done
  | object
deriving DecidableEq, Repr

/-- The error type of the object_store crate (the backend collaborator), as
matched by errors.rs. The six variants named in map_error are listed first;
the remaining variants of the crate fall to the catch-all arm. Each variant
carries its payload collapsed to one string. -/
inductive ObjectStoreError where
  | NotFound (path : String)
  | AlreadyExists (path : String)
  | Precondition (path : String)
  | NotModified (path : String)
  | NotSupported (source : String)
  | PermissionDenied (path : String)
  | Generic (source : String)
  | InvalidPath (source : String)
  | JoinError (source : String)
  | NotImplemented (source : String)
  | Unauthenticated (path : String)
  | UnknownConfigurationKey (key : String)
deriving DecidableEq, Repr

/-- errors.rs map_error: convert object_store errors to Elixir atoms. -/
def map_error (e : ObjectStoreError) : Atom :=
  match e with
  | .NotFound _ => .not_found
  | .AlreadyExists _ => .already_exists
  | .Precondition _ => .precondition_failed
  | .NotModified _ => .not_modified
  | .NotSupported _ => .not_supported
  | .PermissionDenied _ => .permission_denied
  | _ => .error

/-- Object metadata as encoded for Elixir by encode_object_meta in
streaming.rs: location, size, last_modified, optional etag, optional
version (timestamps and versions collapsed to strings). -/
structure ObjectMeta where
  location : String
  size : Nat
  last_modified : String
  e_tag : Option String
  version : Option String
deriving DecidableEq, Repr

/-- The four message shapes sent to the receiver process: chunk from a
download stream, object from a list stream, and the two terminal
messages done and error (streaming.rs send_chunk, send_object,
send_done, send_error). -/
inductive Msg where
  | chunk (payload : List Nat)
  | object (meta : ObjectMeta)
  | done
  | error (msg : String)
deriving DecidableEq, Repr

/-- A registry (HashMap String JoinHandle) as a finite map; the join
handle is abstracted to a numeric task token. -/
def RegMap : Type := String → Option Nat

/-- HashMap::insert: bind id to handle, silently replacing any previous
binding for id. -/
def regInsert (m : RegMap) (id : String) (handle : Nat) : RegMap :=
  fun k => if k = id then some handle else m k

/-- HashMap::remove: return the removed binding (if any) together with
the map without id. -/
def regRemove (m : RegMap) (id : String) : Option Nat × RegMap :=
  (m id, fun k => if k = id then none else m k)

/-- The empty registry, the initial state of the two once_cell globals. -/
def regEmpty : RegMap := fun _ => none

/-- The registry state of streaming.rs: STREAM_REGISTRY for download
streams and the separate LIST_REGISTRY for list streams. -/
structure Sys where
  streamRegistry : RegMap
  listRegistry : RegMap

/-- Initial system state: both global registries empty. -/
def initSys : Sys := ⟨regEmpty, regEmpty⟩

/-- streaming.rs send_chunk: attempts the send with send_and_clear,
DISCARDS the result (the let underscore binding) and unconditionally
returns true, whatever the state of the receiver. -/
def send_chunk (receiverAlive : Bool) : Bool :=
  true

/-- streaming.rs send_object: same shape as send_chunk — the result of
send_and_clear is discarded and true is returned unconditionally. -/
def send_object (receiverAlive : Bool) : Bool :=
  true

/-- Result of running one spawned streaming task to its end: the
messages it sent (in order), the number of stream.next() pulls it
performed, and the registry state it leaves behind. -/
structure TaskRun where
  msgs : List Msg
  pulls : Nat
  sys : Sys

/-- The while-let loop of the download task (streaming.rs lines 44-61):
pull the next chunk result; on Ok send a chunk message and stop if
send_chunk reports failure; on Err send one error message and return;
when the stream is exhausted send one done message. The loop body holds
no reference to STREAM_REGISTRY, so the registry state is passed
through untouched. -/
def downloadLoop (receiverAlive : Bool) (sys : Sys) :
    List (Except String (List Nat)) → TaskRun
  | [] => ⟨[Msg.done], 1, sys⟩
  | chunk_result :: rest =>
    match chunk_result with
    | .ok bytes =>
      if send_chunk receiverAlive then
        let t := downloadLoop receiverAlive sys rest
        ⟨Msg.chunk bytes :: t.msgs, t.pulls + 1, t.sys⟩
      else
        ⟨[Msg.chunk bytes], 1, sys⟩
    | .error e =>
      ⟨[Msg.error e], 1, sys⟩

/-- The whole spawned download task (streaming.rs lines 36-67): await
store.get; on failure send one error message, otherwise stream the
chunks with the loop. -/
def downloadTaskBody (receiverAlive : Bool) (sys : Sys)
    (getResult : Except String (List (Except String (List Nat)))) : TaskRun :=
  match getResult with
  | .ok chunkResults => downloadLoop receiverAlive sys chunkResults
  | .error e => ⟨[Msg.error e], 0, sys⟩

/-- The while-let loop of the list task (streaming.rs lines 364-386):
identical control flow to the download loop, sending object messages
via send_object; holds no reference to LIST_REGISTRY. -/
def listLoop (receiverAlive : Bool) (sys : Sys) :
    List (Except String ObjectMeta) → TaskRun
  | [] => ⟨[Msg.done], 1, sys⟩
  | meta_result :: rest =>
    match meta_result with
    | .ok meta =>
      if send_object receiverAlive then
        let t := listLoop receiverAlive sys rest
        ⟨Msg.object meta :: t.msgs, t.pulls + 1, t.sys⟩
      else
        ⟨[Msg.object meta], 1, sys⟩
    | .error e =>
      ⟨[Msg.error e], 1, sys⟩

/-- start_download_stream (streaming.rs lines 24-77): spawn the task,
then insert the fresh stream id with the task handle into
STREAM_REGISTRY; always returns the ok atom with the id. -/
def start_download_stream (sys : Sys) (stream_id : String) (handle : Nat) :
    Sys × Atom :=
  ({ sys with streamRegistry := regInsert sys.streamRegistry stream_id handle },
   Atom.ok)

/-- start_list_stream (streaming.rs lines 352-396): spawn the task, then
insert the fresh list id with the task handle into LIST_REGISTRY;
always returns the ok atom with the id. -/
def start_list_stream (sys : Sys) (list_id : String) (handle : Nat) :
    Sys × Atom :=
  ({ sys with listRegistry := regInsert sys.listRegistry list_id handle },
   Atom.ok)

/-- cancel_download_stream (streaming.rs lines 81-92): remove the id
from STREAM_REGISTRY only; abort the handle if one was present (the
returned Option Nat is the aborted handle); always returns the ok
atom. -/
def cancel_download_stream (sys : Sys) (stream_id : String) :
    Sys × Option Nat × Atom :=
  let handle_opt := (regRemove sys.streamRegistry stream_id).1
  ({ sys with streamRegistry := (regRemove sys.streamRegistry stream_id).2 },
   handle_opt, Atom.ok)

/-- The registry-touching operations exposed by streaming.rs. The
multipart-upload NIFs hold no reference to either registry and are
modelled separately. -/
inductive Op where
  | startDownload (id : String) (handle : Nat)
  | cancelDownload (id : String)
  | startList (id : String) (handle : Nat)

/-- Effect of one exposed operation on the two registries. -/
def applyOp (sys : Sys) : Op → Sys
  | .startDownload id h => (start_download_stream sys id h).1
  | .cancelDownload id => (cancel_download_stream sys id).1
  | .startList id h => (start_list_stream sys id h).1

/-- UploadSessionWrapper (streaming.rs lines 141-146): the accumulation
buffer and the fixed part-size threshold. The wrapper holds NO lifecycle
flag: nothing records whether complete or abort has been called. -/
structure UploadSession where
  buffer : List Nat
  part_size : Nat
deriving DecidableEq, Repr

/-- Modelled from the spec: the backend-native multipart handle of the
Backend Handle collaborator (object_store MultipartUpload), which is not
part of this repository. Per the contract it accepts parts while open,
and its complete/abort calls finalize or discard the upload, after
which further calls fail with a backend error. -/
inductive MPState where
  | opened (parts : List (List Nat))
  | completed (parts : List (List Nat))
  | aborted
deriving DecidableEq, Repr

/-- Modelled from the spec: MultipartUpload::put_part appends one part
while the upload is open and fails once it is completed or aborted. -/
def put_part (mp : MPState) (data : List Nat) : Except String MPState :=
  match mp with
  | .opened parts => .ok (.opened (parts ++ [data]))
  | .completed _ => .error "no active multipart upload"
  | .aborted => .error "no active multipart upload"

/-- Modelled from the spec: MultipartUpload::complete finalizes an open
upload from its accumulated parts. -/
def mp_complete (mp : MPState) : Except String MPState :=
  match mp with
  | .opened parts => .ok (.completed parts)
  | .completed _ => .error "no active multipart upload"
  | .aborted => .error "no active multipart upload"

/-- Modelled from the spec: MultipartUpload::abort discards an open
upload. -/
def mp_abort (mp : MPState) : Except String MPState :=
  match mp with
  | .opened _ => .ok .aborted
  | .completed _ => .error "no active multipart upload"
  | .aborted => .error "no active multipart upload"

/-- The only error shape the upload NIFs produce: rustler Error::Term
wrapping a formatted message string built from the backend failure.
There is no invalid-session-state variant anywhere in the code. -/
inductive UploadError where
  | backend (msg : String)
deriving DecidableEq, Repr

/-- start_upload_session (streaming.rs lines 150-179): open the backend
multipart upload, allocate an empty buffer, fix part_size at
5 * 1024 * 1024 bytes. -/
def start_upload_session : UploadSession × MPState :=
  (⟨[], 5 * 1024 * 1024⟩, .opened [])

/-- upload_chunk (streaming.rs lines 183-229): append the chunk to the
buffer; if the buffer length is now at least part_size, drain the whole
buffer and upload it as one part, mapping a backend failure to a
formatted error term. -/
def upload_chunk (session : UploadSession) (mp : MPState)
    (chunk : List Nat) : Except UploadError (UploadSession × MPState) :=
  let buffer := session.buffer ++ chunk
  if session.part_size ≤ buffer.length then
    match put_part mp buffer with
    | .ok mp2 => .ok ({ session with buffer := [] }, mp2)
    | .error e => .error (.backend ("Failed to upload part: " ++ e))
  else
    .ok ({ session with buffer := buffer }, mp)

/-- complete_upload (streaming.rs lines 233-271): drain the buffer; if
the drained data is non-empty upload it as a final part; then call the
backend completion; each failure is mapped to a formatted error term. -/
def complete_upload (session : UploadSession) (mp : MPState) :
    Except UploadError (UploadSession × MPState) :=
  let remaining_data := session.buffer
  let session2 : UploadSession := { session with buffer := [] }
  let step1 : Except UploadError MPState :=
    if remaining_data.isEmpty then .ok mp
    else
      match put_part mp remaining_data with
      | .ok mp2 => .ok mp2
      | .error e => .error (.backend ("Failed to upload final part: " ++ e))
  match step1 with
  | .error e => .error e
  | .ok mp2 =>
    match mp_complete mp2 with
    | .ok mp3 => .ok (session2, mp3)
    | .error e => .error (.backend ("Failed to complete upload: " ++ e))

/-- abort_upload (streaming.rs lines 275-289): call the backend abort,
mapping a failure to a formatted error term; the buffer is not touched. -/
def abort_upload (session : UploadSession) (mp : MPState) :
    Except UploadError (UploadSession × MPState) :=
  match mp_abort mp with
  | .ok mp2 => .ok (session, mp2)
  | .error e => .error (.backend ("Failed to abort upload: " ++ e))

/-- A sequence of upload_chunk calls, stopping at the first error. -/
def runChunks (session : UploadSession) (mp : MPState) :
    List (List Nat) → Except UploadError (UploadSession × MPState)
  | [] => .ok (session, mp)
  | c :: cs =>
    match upload_chunk session mp c with
    | .ok (s2, mp2) => runChunks s2 mp2 cs
    | .error e => .error e

/-- A whole session against a fresh open backend upload with threshold
T: run the chunk sequence, then complete. -/
def uploadRun (T : Nat) (chunks : List (List Nat)) :
    Except UploadError (UploadSession × MPState) :=
  match runChunks ⟨[], T⟩ (.opened []) chunks with
  | .ok (s, mp) => complete_upload s mp
  | .error e => .error e

/-- The parts the backend holds after a successful completed run. -/
def finalParts (T : Nat) (chunks : List (List Nat)) : List (List Nat) :=
  match uploadRun T chunks with
  | .ok (_, .completed parts) => parts
  | _ => []

/-- Whether a run ended in a successfully completed backend upload. -/
def uploadCompleted (T : Nat) (chunks : List (List Nat)) : Bool :=
  match uploadRun T chunks with
  | .ok (_, .completed _) => true
  | _ => false

/-- The enumerate-and-match loop of delete_many (operations.rs lines
228-237): count the Ok results and collect (index, formatted reason)
for each Err, indices counted from idx. -/
def tally (idx : Nat) : List (Except String Unit) → Nat × List (Nat × String)
  | [] => (0, [])
  | .ok _ :: rest =>
    let t := tally (idx + 1) rest
    (t.1 + 1, t.2)
  | .error e :: rest =>
    let t := tally (idx + 1) rest
    (t.1, (idx, e) :: t.2)

/-- delete_many (operations.rs lines 212-241): stream one delete per
path in order (the backend delete_stream of the collaborator contract
yields one result per input path), collect the results, and tally
successes and indexed failures; the NIF never fails as a whole — it
always returns the (succeeded, failed) tuple. The per-path outcome of
the backend is the function argument. -/
def delete_many (outcome : String → Except String Unit)
    (paths : List String) : Nat × List (Nat × String) :=
  tally 0 (paths.map outcome)

/-- A terminal message: done or error. -/
def isTerminal : Msg → Bool
  | .done => true
  | .error _ => true
  | _ => false

/-- A chunk message. -/
def isChunk : Msg → Bool
  | .chunk _ => true
  | _ => false

/-- An object message. -/
def isObject : Msg → Bool
  | .object _ => true
  | _ => false

/-- The download-stream protocol shape: a possibly empty run of chunk
messages strictly followed by exactly one terminal message. -/
def dlWellFormed (msgs : List Msg) : Bool :=
  match msgs.getLast? with
  | none => false
  | some m => isTerminal m && msgs.dropLast.all (fun x => isChunk x)

/-- The list-stream protocol shape: a possibly empty run of object
messages strictly followed by exactly one terminal message. -/
def listWellFormed (msgs : List Msg) : Bool :=
  match msgs.getLast? with
  | none => false
  | some m => isTerminal m && msgs.dropLast.all (fun x => isObject x)

/-- Check that one (index, reason) failure entry points at an actual
error result: the result list holds Except.error with that reason at
that index. -/
def failCheck (rs : List (Except String Unit)) (p : Nat × String) : Bool :=
  match rs[p.1]? with
  | some (Except.error m) => m == p.2
  | _ => false

/-! Helper lemmas shared by the claim theorems. -/

theorem downloadLoop_sys_eq (alive : Bool) (sys : Sys) :
    ∀ l, (downloadLoop alive sys l).sys = sys := by
  intro l
  induction l with
  | nil => rfl
  | cons r rest ih =>
    cases r with
    | ok bytes => simpa [downloadLoop, send_chunk] using ih
    | error e => rfl

theorem listLoop_sys_eq (alive : Bool) (sys : Sys) :
    ∀ l, (listLoop alive sys l).sys = sys := by
  intro l
  induction l with
  | nil => rfl
  | cons r rest ih =>
    cases r with
    | ok meta => simpa [listLoop, send_object] using ih
    | error e => rfl

theorem downloadLoop_shape (alive : Bool) (sys : Sys) :
    ∀ l, ∃ (bs : List (List Nat)) (t : Msg),
      (downloadLoop alive sys l).msgs = bs.map Msg.chunk ++ [t]
      ∧ isTerminal t = true := by
  intro l
  induction l with
  | nil => exact ⟨[], Msg.done, rfl, rfl⟩
  | cons r rest ih =>
    cases r with
    | ok bytes =>
      obtain ⟨bs, t, hm, ht⟩ := ih
      exact ⟨bytes :: bs, t, by simp [downloadLoop, send_chunk, hm], ht⟩
    | error e => exact ⟨[], Msg.error e, rfl, rfl⟩

theorem listLoop_shape (alive : Bool) (sys : Sys) :
    ∀ l, ∃ (ms : List ObjectMeta) (t : Msg),
      (listLoop alive sys l).msgs = ms.map Msg.object ++ [t]
      ∧ isTerminal t = true := by
  intro l
  induction l with
  | nil => exact ⟨[], Msg.done, rfl, rfl⟩
  | cons r rest ih =>
    cases r with
    | ok meta =>
      obtain ⟨ms, t, hm, ht⟩ := ih
      exact ⟨meta :: ms, t, by simp [listLoop, send_object, hm], ht⟩
    | error e => exact ⟨[], Msg.error e, rfl, rfl⟩

theorem dlWellFormed_shape (bs : List (List Nat)) (t : Msg)
    (ht : isTerminal t = true) :
    dlWellFormed (bs.map Msg.chunk ++ [t]) = true := by
  unfold dlWellFormed
  rw [List.getLast?_concat, List.dropLast_concat]
  simp [ht, isChunk, List.all_eq_true]

theorem listWellFormed_shape (ms : List ObjectMeta) (t : Msg)
    (ht : isTerminal t = true) :
    listWellFormed (ms.map Msg.object ++ [t]) = true := by
  unfold listWellFormed
  rw [List.getLast?_concat, List.dropLast_concat]
  simp [ht, isObject, List.all_eq_true]

theorem downloadLoop_msgs_append (alive : Bool) (sys : Sys) :
    ∀ (bs : List (List Nat)) (rest : List (Except String (List Nat))),
      (downloadLoop alive sys (bs.map Except.ok ++ rest)).msgs
        = bs.map Msg.chunk ++ (downloadLoop alive sys rest).msgs := by
  intro bs
  induction bs with
  | nil => intro rest; rfl
  | cons b bs ih =>
    intro rest
    simp [downloadLoop, send_chunk, ih rest]

theorem listLoop_msgs_append (alive : Bool) (sys : Sys) :
    ∀ (ms : List ObjectMeta) (rest : List (Except String ObjectMeta)),
      (listLoop alive sys (ms.map Except.ok ++ rest)).msgs
        = ms.map Msg.object ++ (listLoop alive sys rest).msgs := by
  intro ms
  induction ms with
  | nil => intro rest; rfl
  | cons m ms ih =>
    intro rest
    simp [listLoop, send_object, ih rest]

/-! Claim theorems. -/

/-- C8: map_error is a total pure function on backend errors mapping the
NotFound, AlreadyExists, Precondition, NotModified, NotSupported and
PermissionDenied variants to the corresponding atoms and every other
backend error variant to the generic error atom. -/
theorem map_error_taxonomy :
    (∀ p, map_error (.NotFound p) = .not_found)
    ∧ (∀ p, map_error (.AlreadyExists p) = .already_exists)
    ∧ (∀ p, map_error (.Precondition p) = .precondition_failed)
    ∧ (∀ p, map_error (.NotModified p) = .not_modified)
    ∧ (∀ s, map_error (.NotSupported s) = .not_supported)
    ∧ (∀ p, map_error (.PermissionDenied p) = .permission_denied)
    ∧ (∀ s, map_error (.Generic s) = .error)
    ∧ (∀ s, map_error (.InvalidPath s) = .error)
    ∧ (∀ s, map_error (.JoinError s) = .error)
    ∧ (∀ s, map_error (.NotImplemented s) = .error)
    ∧ (∀ p, map_error (.Unauthenticated p) = .error)
    ∧ (∀ k, map_error (.UnknownConfigurationKey k) = .error) :=
  ⟨fun _ => rfl, fun _ => rfl, fun _ => rfl, fun _ => rfl, fun _ => rfl,
   fun _ => rfl, fun _ => rfl, fun _ => rfl, fun _ => rfl, fun _ => rfl,
   fun _ => rfl, fun _ => rfl⟩

/-- C7: cancel_download_stream returns the ok atom for every id, known
or unknown; a second cancel with the same id aborts no handle and
leaves the state exactly where the first cancel left it. -/
theorem cancel_stream_idempotent (sys : Sys) (id : String) :
    (cancel_download_stream sys id).2.2 = Atom.ok
    ∧ (cancel_download_stream (cancel_download_stream sys id).1 id).2.2 = Atom.ok
    ∧ (cancel_download_stream (cancel_download_stream sys id).1 id).2.1 = none
    ∧ (cancel_download_stream (cancel_download_stream sys id).1 id).1
        = (cancel_download_stream sys id).1 := by
  refine ⟨rfl, rfl, ?_, ?_⟩
  · simp [cancel_download_stream, regRemove]
  · simp only [cancel_download_stream, regRemove]
    congr 1
    funext k
    by_cases hk : k = id <;> simp [hk]

/-- C6 counterexample: registering a second download stream under an id
already present does not fail with a DuplicateSession condition — it
returns the ok atom and silently replaces the old registry entry
(handle 1 is overwritten by handle 2). -/
theorem register_duplicate_counterexample :
    (start_download_stream (start_download_stream initSys "s" 1).1 "s" 2).2
        = Atom.ok
    ∧ (start_download_stream (start_download_stream initSys "s" 1).1 "s" 2).1.streamRegistry "s"
        = some 2 := by
  constructor
  · rfl
  · simp [start_download_stream, regInsert]

/-- C6 amended: registration is a plain HashMap insert with no duplicate
guard: for any prior registry state it returns the ok atom and binds the
id to the new handle, overwriting any existing entry; the same holds for
list-stream registration. -/
theorem register_always_ok_overwrites (sys : Sys) (id : String) (h1 h2 : Nat) :
    (start_download_stream sys id h1).2 = Atom.ok
    ∧ (start_download_stream sys id h1).1.streamRegistry id = some h1
    ∧ (start_download_stream (start_download_stream sys id h1).1 id h2).1.streamRegistry id
        = some h2
    ∧ (start_list_stream sys id h1).2 = Atom.ok
    ∧ (start_list_stream sys id h1).1.listRegistry id = some h1 := by
  refine ⟨rfl, ?_, ?_, rfl, ?_⟩ <;> simp [start_download_stream, start_list_stream, regInsert]

/-- C3 counterexample: start a download stream under id s with handle 7
and let its task run to natural completion on an empty object — the
task sends its done message, yet the STREAM_REGISTRY still maps s to
handle 7: the task does not remove its own entry. -/
theorem task_exit_leaves_entry_counterexample :
    (downloadTaskBody true (start_download_stream initSys "s" 7).1 (.ok [])).msgs
        = [Msg.done]
    ∧ (downloadTaskBody true (start_download_stream initSys "s" 7).1 (.ok [])).sys.streamRegistry "s"
        = some 7 := by
  constructor
  · rfl
  · simp [downloadTaskBody, downloadLoop, start_download_stream, regInsert]

/-- C3 amended: the spawned download task never touches the registry —
it passes the registry state through unchanged in every case (natural
completion, backend error, dead receiver) — so after the task exits the
entry inserted by start_download_stream is still registered; only
cancel_download_stream removes it. -/
theorem download_task_registry_passthrough (alive : Bool) (sys : Sys)
    (g : Except String (List (Except String (List Nat)))) :
    (downloadTaskBody alive sys g).sys = sys
    ∧ ∀ (id : String) (h : Nat)
        (g2 : Except String (List (Except String (List Nat)))),
        (downloadTaskBody alive (start_download_stream sys id h).1 g2).sys.streamRegistry id
          = some h := by
  constructor
  · cases g with
    | ok l => exact downloadLoop_sys_eq alive sys l
    | error e => rfl
  · intro id h g2
    have h1 : (downloadTaskBody alive (start_download_stream sys id h).1 g2).sys
        = (start_download_stream sys id h).1 := by
      cases g2 with
      | ok l => exact downloadLoop_sys_eq alive _ l
      | error e => rfl
    rw [h1]
    simp [start_download_stream, regInsert]

/-- C4: with the receiver dead (every delivery fails), the task still
performs all three pulls from the backend stream, sends both chunk
messages and emits the terminal done message — because send_chunk
discards the result of send_and_clear and unconditionally returns true,
contradicting its own in-source comment that a failed send stops the
stream. -/
theorem dead_receiver_still_streams :
    send_chunk false = true
    ∧ (downloadTaskBody false initSys (.ok [.ok [1], .ok [2]])).msgs
        = [Msg.chunk [1], Msg.chunk [2], Msg.done]
    ∧ (downloadTaskBody false initSys (.ok [.ok [1], .ok [2]])).pulls = 3 :=
  ⟨rfl, rfl, rfl⟩

/-- C2: for every download or listing session the message sequence the
task sends is zero or more chunk (respectively object) messages
strictly followed by exactly one terminal message; exhaustion yields
the done terminal, a backend failure mid-stream yields the error
terminal, and nothing follows a terminal for that session. -/
theorem stream_message_protocol :
    (∀ (alive : Bool) (sys : Sys) g,
        dlWellFormed (downloadTaskBody alive sys g).msgs = true)
    ∧ (∀ (alive : Bool) (sys : Sys) l,
        listWellFormed (listLoop alive sys l).msgs = true)
    ∧ (∀ (alive : Bool) (sys : Sys) (bs : List (List Nat)),
        (downloadTaskBody alive sys (.ok (bs.map Except.ok))).msgs
          = bs.map Msg.chunk ++ [Msg.done])
    ∧ (∀ (alive : Bool) (sys : Sys) (bs : List (List Nat)) (e : String) rest,
        (downloadTaskBody alive sys (.ok (bs.map Except.ok ++ .error e :: rest))).msgs
          = bs.map Msg.chunk ++ [Msg.error e])
    ∧ (∀ (alive : Bool) (sys : Sys) (ms : List ObjectMeta),
        (listLoop alive sys (ms.map Except.ok)).msgs
          = ms.map Msg.object ++ [Msg.done])
    ∧ (∀ (alive : Bool) (sys : Sys) (ms : List ObjectMeta) (e : String) rest,
        (listLoop alive sys (ms.map Except.ok ++ .error e :: rest)).msgs
          = ms.map Msg.object ++ [Msg.error e]) := by
  refine ⟨?_, ?_, ?_, ?_, ?_, ?_⟩
  · intro alive sys g
    cases g with
    | ok l =>
      obtain ⟨bs, t, hm, ht⟩ := downloadLoop_shape alive sys l
      simpa [downloadTaskBody, hm] using dlWellFormed_shape bs t ht
    | error e => rfl
  · intro alive sys l
    obtain ⟨ms, t, hm, ht⟩ := listLoop_shape alive sys l
    simpa [hm] using listWellFormed_shape ms t ht
  · intro alive sys bs
    have h := downloadLoop_msgs_append alive sys bs []
    simpa [downloadTaskBody, downloadLoop] using h
  · intro alive sys bs e rest
    have h := downloadLoop_msgs_append alive sys bs (.error e :: rest)
    simpa [downloadTaskBody, downloadLoop] using h
  · intro alive sys ms
    have h := listLoop_msgs_append alive sys ms []
    simpa [listLoop] using h
  · intro alive sys ms e rest
    have h := listLoop_msgs_append alive sys ms (.error e :: rest)
    simpa [listLoop] using h

/-- C10: list sessions live in LIST_REGISTRY, separate from the
download registry; cancel_download_stream consults only the download
registry, so for an id belonging only to a list session it returns the
ok atom, aborts no task, and leaves the list registry untouched; and no
exposed registry operation ever empties a list-registry entry. -/
theorem list_registry_isolated (sys : Sys) (id : String) (h : Nat)
    (hid : sys.streamRegistry id = none) :
    (start_list_stream sys id h).1.streamRegistry = sys.streamRegistry
    ∧ (cancel_download_stream sys id).1.listRegistry = sys.listRegistry
    ∧ (cancel_download_stream sys id).2.2 = Atom.ok
    ∧ (cancel_download_stream sys id).2.1 = none
    ∧ ∀ (op : Op) (k : String), (sys.listRegistry k).isSome = true →
        ((applyOp sys op).listRegistry k).isSome = true := by
  refine ⟨rfl, rfl, rfl, ?_, ?_⟩
  · simpa [cancel_download_stream, regRemove] using hid
  · intro op k hk
    cases op with
    | startDownload id2 h2 => simpa [applyOp, start_download_stream] using hk
    | cancelDownload id2 => simpa [applyOp, cancel_download_stream] using hk
    | startList id2 h2 =>
      by_cases hke : k = id2
      · simp [applyOp, start_list_stream, regInsert, hke]
      · simpa [applyOp, start_list_stream, regInsert, hke] using hk

/-- C10 witness: a concrete state holding only the list session l: the
cancel call returns the ok atom, aborts nothing, and the list entry is
still present afterwards. -/
theorem list_registry_isolated_witness :
    (cancel_download_stream (start_list_stream initSys "l" 3).1 "l").2.2 = Atom.ok
    ∧ (cancel_download_stream (start_list_stream initSys "l" 3).1 "l").2.1 = none
    ∧ ((applyOp (start_list_stream initSys "l" 3).1 (.cancelDownload "l")).listRegistry "l").isSome
        = true := by
  obtain ⟨_, _, h3, h4, h5⟩ :=
    list_registry_isolated (start_list_stream initSys "l" 3).1 "l" 3 rfl
  exact ⟨h3, h4, h5 (.cancelDownload "l") "l" (by simp [start_list_stream, regInsert])⟩

theorem tally_sum : ∀ (rs : List (Except String Unit)) (idx : Nat),
    (tally idx rs).1 + (tally idx rs).2.length = rs.length := by
  intro rs
  induction rs with
  | nil => intro idx; rfl
  | cons r rest ih =>
    intro idx
    cases r with
    | ok u =>
      have := ih (idx + 1)
      simp only [tally, List.length_cons]
      omega
    | error e =>
      have := ih (idx + 1)
      simp only [tally, List.length_cons]
      omega

theorem tally_count_ok : ∀ (rs : List (Except String Unit)) (idx : Nat),
    (tally idx rs).1 = rs.countP (fun r => r.isOk) := by
  intro rs
  induction rs with
  | nil => intro idx; rfl
  | cons r rest ih =>
    intro idx
    cases r with
    | ok u => simp [tally, ih (idx + 1), List.countP_cons, Except.isOk, Except.toBool]
    | error e => simp [tally, ih (idx + 1), List.countP_cons, Except.isOk, Except.toBool]

theorem tally_indices (full : List (Except String Unit)) :
    ∀ (rs : List (Except String Unit)) (idx : Nat),
      (∀ k, rs[k]? = full[idx + k]?) →
      ((tally idx rs).2.all (failCheck full)) = true := by
  intro rs
  induction rs with
  | nil => intro idx _; rfl
  | cons r rest ih =>
    intro idx hk
    have hrest : ∀ k, rest[k]? = full[idx + 1 + k]? := by
      intro k
      have := hk (k + 1)
      simpa [Nat.add_assoc, Nat.add_comm 1 k] using this
    cases r with
    | ok u =>
      simpa [tally] using ih (idx + 1) hrest
    | error e =>
      have h0 : full[idx]? = some (Except.error e) := by
        have := hk 0
        simpa using this.symm
      simp [tally, List.all_cons, failCheck, h0, ih (idx + 1) hrest]

/-- C9: delete_many never fails the whole batch: over N paths it
returns a success count plus an indexed failure list whose lengths sum
to N, the success count equals the number of Ok backend results, and
every (index, reason) entry points at the exact backend result that
failed at that index. -/
theorem delete_many_partial_failures (outcome : String → Except String Unit)
    (paths : List String) :
    (delete_many outcome paths).1 + (delete_many outcome paths).2.length
        = paths.length
    ∧ (delete_many outcome paths).1
        = (paths.map outcome).countP (fun r => r.isOk)
    ∧ ((delete_many outcome paths).2.all (failCheck (paths.map outcome))) = true := by
  refine ⟨?_, ?_, ?_⟩
  · have := tally_sum (paths.map outcome) 0
    simpa [delete_many] using this
  · exact tally_count_ok (paths.map outcome) 0
  · exact tally_indices (paths.map outcome) (paths.map outcome) 0 (fun k => by simp)

theorem upload_chunk_opened (b : List Nat) (T : Nat) (ps : List (List Nat))
    (c : List Nat) :
    upload_chunk ⟨b, T⟩ (.opened ps) c =
      if T ≤ (b ++ c).length then
        Except.ok ((⟨[], T⟩ : UploadSession), MPState.opened (ps ++ [b ++ c]))
      else
        Except.ok ((⟨b ++ c, T⟩ : UploadSession), MPState.opened ps) := by
  unfold upload_chunk put_part
  by_cases h : T ≤ (b ++ c).length <;> simp [h]

theorem runChunks_opened (T : Nat) :
    ∀ (cs : List (List Nat)) (b : List Nat) (ps : List (List Nat)),
      (b = [] ∨ b.length < T) →
      ∃ (ps2 : List (List Nat)) (b2 : List Nat),
        runChunks ⟨b, T⟩ (.opened ps) cs
            = .ok (⟨b2, T⟩, .opened (ps ++ ps2))
        ∧ ps2.flatten ++ b2 = b ++ cs.flatten
        ∧ (∀ p ∈ ps2, T ≤ p.length)
        ∧ (b2 = [] ∨ b2.length < T) := by
  intro cs
  induction cs with
  | nil =>
    intro b ps hb
    exact ⟨[], b, by simp [runChunks], by simp, by simp, hb⟩
  | cons c cs ih =>
    intro b ps hb
    by_cases h : T ≤ (b ++ c).length
    · obtain ⟨ps2, b2, h1, h2, h3, h4⟩ := ih [] (ps ++ [b ++ c]) (Or.inl rfl)
      refine ⟨(b ++ c) :: ps2, b2, ?_, ?_, ?_, h4⟩
      · rw [runChunks, upload_chunk_opened, if_pos h]
        simpa [List.append_assoc] using h1
      · simp only [List.flatten, List.nil_append] at h2 ⊢
        simp [List.append_assoc, h2]
      · intro p hp
        rcases List.mem_cons.mp hp with hph | hpt
        · subst hph; exact h
        · exact h3 p hpt
    · push_neg at h
      obtain ⟨ps2, b2, h1, h2, h3, h4⟩ := ih (b ++ c) ps (Or.inr h)
      refine ⟨ps2, b2, ?_, ?_, h3, h4⟩
      · rw [runChunks, upload_chunk_opened, if_neg (by omega)]
        exact h1
      · rw [h2]
        simp [List.append_assoc]

theorem complete_opened (b : List Nat) (T : Nat) (ps : List (List Nat)) :
    complete_upload ⟨b, T⟩ (.opened ps)
      = .ok (⟨[], T⟩, .completed (if b.isEmpty then ps else ps ++ [b])) := by
  cases b with
  | nil => rfl
  | cons x xs => rfl

/-- C1: for every threshold T and every sequence of upload_chunk calls
followed by complete_upload against a fresh open backend upload, the
completion succeeds, the concatenation of the uploaded parts equals the
concatenation of the appended payloads, every part except possibly the
final one has length at least T, and a flush-triggering upload_chunk
leaves the buffer empty, handing the whole drained buffer to the
backend as one part. -/
theorem upload_stream_exact (T : Nat) (chunks : List (List Nat)) :
    uploadCompleted T chunks = true
    ∧ (finalParts T chunks).flatten = chunks.flatten
    ∧ ((finalParts T chunks).dropLast.all (fun p => T ≤ p.length)) = true
    ∧ ∀ (s : UploadSession) (ps : List (List Nat)) (c : List Nat),
        s.part_size ≤ (s.buffer ++ c).length →
        upload_chunk s (.opened ps) c
          = .ok (⟨[], s.part_size⟩, .opened (ps ++ [s.buffer ++ c])) := by
  obtain ⟨ps2, b2, h1, h2, h3, h4⟩ := runChunks_opened T chunks [] [] (Or.inl rfl)
  have hrun : uploadRun T chunks
      = .ok (⟨[], T⟩, .completed (if b2.isEmpty then ps2 else ps2 ++ [b2])) := by
    simp only [uploadRun, h1, List.nil_append]
    exact complete_opened b2 T ps2
  have hfinal : finalParts T chunks
      = (if b2.isEmpty then ps2 else ps2 ++ [b2]) := by
    by_cases hb : b2.isEmpty <;> simp [finalParts, hrun, hb]
  have h2' : ps2.flatten ++ b2 = chunks.flatten := by simpa using h2
  refine ⟨?_, ?_, ?_, ?_⟩
  · by_cases hb : b2.isEmpty <;> simp [uploadCompleted, hrun, hb]
  · rw [hfinal]
    by_cases hb : b2.isEmpty
    · have hb' : b2 = [] := List.isEmpty_iff.mp hb
      rw [if_pos hb]
      rw [hb', List.append_nil] at h2'
      exact h2'
    · rw [if_neg hb]
      simpa using h2'
  · rw [hfinal]
    by_cases hb : b2.isEmpty
    · rw [if_pos hb]
      simp only [List.all_eq_true, decide_eq_true_eq]
      intro p hp
      exact h3 p (List.dropLast_subset _ hp)
    · rw [if_neg hb, List.dropLast_concat]
      simp only [List.all_eq_true, decide_eq_true_eq]
      exact h3
  · intro s ps c hc
    obtain ⟨b, T'⟩ := s
    rw [upload_chunk_opened, if_pos hc]

/-- C1 witness: threshold 3 with appends of 2, 2 and 1 bytes uploads
exactly the parts [1,2,3,4] and [5], and the 4-byte second append
flushes the drained buffer as one part, leaving the buffer empty. -/
theorem upload_stream_exact_witness :
    uploadCompleted 3 [[1, 2], [3, 4], [5]] = true
    ∧ (finalParts 3 [[1, 2], [3, 4], [5]]).flatten = [[1, 2], [3, 4], [5]].flatten
    ∧ ((finalParts 3 [[1, 2], [3, 4], [5]]).dropLast.all
        (fun p => 3 ≤ p.length)) = true
    ∧ upload_chunk ⟨[1, 2], 3⟩ (.opened []) [3, 4]
        = .ok (⟨[], 3⟩, .opened [[1, 2, 3, 4]]) := by
  obtain ⟨h1, h2, h3, h4⟩ := upload_stream_exact 3 [[1, 2], [3, 4], [5]]
  exact ⟨h1, h2, h3, h4 ⟨[1, 2], 3⟩ [] [3, 4] (by decide)⟩

/-- C5 counterexample: after a successful complete_upload on a fresh
session, a further upload_chunk call with a 1-byte payload SUCCEEDS
(returning the ok result and growing the buffer) instead of failing,
and a second complete_upload fails with a backend-derived formatted
error term, not an invalid-session-state condition — no such condition
exists anywhere in the code. -/
theorem invalid_state_counterexample :
    complete_upload ⟨[], 5 * 1024 * 1024⟩ (.opened [])
        = .ok (⟨[], 5 * 1024 * 1024⟩, .completed [])
    ∧ upload_chunk ⟨[], 5 * 1024 * 1024⟩ (.completed []) [1]
        = .ok (⟨[1], 5 * 1024 * 1024⟩, .completed [])
    ∧ complete_upload ⟨[], 5 * 1024 * 1024⟩ (.completed [])
        = .error (.backend "Failed to complete upload: no active multipart upload") := by
  refine ⟨rfl, ?_, rfl⟩
  rw [upload_chunk]
  norm_num

/-- C5 amended: the session wrapper tracks no lifecycle state: an
append that does not trigger a flush succeeds against ANY backend
state, including after completion or abort; a repeated complete or
abort fails with the classified backend error wrapped in a formatted
message term; and the only error shape these operations can produce is
the backend-message term — there is no invalid-session-state error. -/
theorem no_session_state_tracking (s : UploadSession) (mp : MPState)
    (c : List Nat) (ps : List (List Nat))
    (h : s.buffer.length + c.length < s.part_size) :
    upload_chunk s mp c = .ok ({ s with buffer := s.buffer ++ c }, mp)
    ∧ (s.buffer = [] → complete_upload s (.completed ps)
        = .error (.backend "Failed to complete upload: no active multipart upload"))
    ∧ abort_upload s (.completed ps)
        = .error (.backend "Failed to abort upload: no active multipart upload")
    ∧ abort_upload s .aborted
        = .error (.backend "Failed to abort upload: no active multipart upload")
    ∧ ∀ e : UploadError, ∃ m, e = .backend m := by
  refine ⟨?_, ?_, rfl, rfl, ?_⟩
  · rw [upload_chunk]
    rw [if_neg (by simpa [List.length_append] using Nat.not_le.mpr h)]
  · intro hb
    obtain ⟨b, T⟩ := s
    simp only at hb
    subst hb
    rfl
  · intro e
    cases e with
    | backend m => exact ⟨m, rfl⟩

/-- C5 amended witness: with threshold 4 and an empty buffer, a 1-byte
append against a completed backend upload returns ok, and the repeated
complete returns the backend-message error term. -/
theorem no_session_state_tracking_witness :
    upload_chunk ⟨[], 4⟩ (.completed []) [1] = .ok (⟨[1], 4⟩, .completed [])
    ∧ complete_upload ⟨[], 4⟩ (.completed [])
        = .error (.backend "Failed to complete upload: no active multipart upload") := by
  obtain ⟨h1, h2, _, _, _⟩ :=
    no_session_state_tracking ⟨[], 4⟩ (.completed []) [1] [] (by decide)
  exact ⟨h1, h2 rfl⟩

end ObjectStorex
